import Mathlib

/-!
Verification development for `scrap.py`, a letras.com lyrics scraper.

The scraper fetches an artist's "most accessed" page, extracts the song
URLs, fetches every song page, extracts title and lyrics, and serializes
the records to a JSON file, either sequentially or via a thread pool.

Shallow embedding choices:
* HTTP retrieval and BeautifulSoup parsing are external capabilities.
  They are modelled by a `Fetch` environment mapping a URL to an
  `Except ScrapError Document`, where `Document` records exactly the
  query results the scraper reads from a parsed page: the catalog rows
  `find_all('li', class_='cnt-list-row')`, the heading container
  `find('div', class_='cnt-head_title')` (with its `h1` text), and the
  lyrics container `find('div', class_='cnt-letra')` (with its ordered
  `find_all('p')` paragraphs, each carrying its markup `str(p)` and its
  rendered plain text `p.text`).
* Python strings are Lean `String`s; the text transforms are implemented
  on the underlying `List Char`.
* Python exceptions are `Except ScrapError`: `lookupError` stands for the
  spec's LookupError taxon ("expected markup element or attribute
  absent", raised in Python as an attribute access on a `find` that
  returned `None`), `fetchError` for network/request failures.
* Python's regex `\w` (for the `\B` word-boundary test) is modelled over
  ASCII word characters; the verified claims do not depend on non-ASCII
  word characters.
-/

/-- Error taxonomy of the spec: fetch failures and absent-markup lookups. -/
inductive ScrapError where
  | fetchError
  | lookupError

deriving instance DecidableEq, Repr for ScrapError

/-- One `<p>` node of the lyrics container: `markup` is Python `str(p)`,
`text` is the rendered plain text `p.text`. -/
structure Paragraph where
  markup : String
  text : String

deriving instance DecidableEq, Repr for Paragraph

/-- The lyrics container `div.cnt-letra`: its `find_all('p')` children in
document order. -/
structure LyricDiv where
  paragraphs : List Paragraph

deriving instance DecidableEq, Repr for LyricDiv

/-- The heading container `div.cnt-head_title`: the rendered text of its
`h1` child, if the `find("h1")` locates one. -/
structure HeadDiv where
  h1 : Option String

deriving instance DecidableEq, Repr for HeadDiv

/-- One catalog row `li.cnt-list-row`: its `data-shareurl` attribute, if
present (`tag.get` returns `None` for a missing attribute). -/
structure CatalogRow where
  dataShareurl : Option String

deriving instance DecidableEq, Repr for CatalogRow

/-- A fetched and parsed page, recording exactly the query results the
scraper reads from the soup. -/
structure Document where
  cntListRows : List CatalogRow
  cntHeadTitle : Option HeadDiv
  cntLetra : Option LyricDiv

deriving instance DecidableEq, Repr for Document

/-- The song record dict built by `get_song_info`, with the source's
field order `name`, `lyrics`, `url`. -/
structure SongRecord where
  name : String
  lyrics : String
  url : String

deriving instance DecidableEq, Repr for SongRecord

/-- The external document-fetch capability: `requests.get` followed by
BeautifulSoup parsing. -/
abbrev Fetch := String → Except ScrapError Document

/-- Python regex word character (`\w`), restricted to ASCII. -/
def pyWordChar (c : Char) : Bool := c.isAlphanum || c == '_'

/-- Core of `re.sub(r"\B([A-Z])", r" \1", s)`: walking the original
string, a space is inserted before every ASCII uppercase letter whose
preceding character is a word character (`\B` holds before a word
character exactly when the position is not at the start and the previous
character is a word character). `prevWord` says whether the previous
original character was a word character. -/
def camelAux : Bool → List Char → List Char
  | _, [] => []
  | prevWord, c :: rest =>
    if prevWord && c.isUpper then ' ' :: c :: camelAux (pyWordChar c) rest
    else c :: camelAux (pyWordChar c) rest

/-- `re.sub(r"\B([A-Z])", r" \1", s)`: split camelCase artifacts. -/
def camelSpace (s : String) : String := String.mk (camelAux false s.data)

/-- `re.sub(' +', ' ', s)`: each maximal run of spaces becomes a single
space (a space followed by a space is dropped). -/
def collapse : List Char → List Char
  | [] => []
  | [c] => [c]
  | c :: d :: rest =>
    if c == ' ' && d == ' ' then collapse (d :: rest)
    else c :: collapse (d :: rest)

/-- `re.sub(' +', ' ', s)` on strings. -/
def collapseSpaces (s : String) : String := String.mk (collapse s.data)

/-- Python `str.replace`: leftmost non-overlapping replacement of every
occurrence of `pat` by `rep`. The fuel argument (instantiated with the
length of the scanned list) only makes the recursion structural; one
character is consumed per step, so it never runs out. -/
def replaceFuel (pat rep : List Char) : Nat → List Char → List Char
  | _, [] => []
  | 0, s => s
  | fuel + 1, c :: rest =>
    if !pat.isEmpty && pat.isPrefixOf (c :: rest) then
      rep ++ replaceFuel pat rep fuel (List.drop pat.length (c :: rest))
    else
      c :: replaceFuel pat rep fuel rest

/-- Python `s.replace(pat, rep)` (for the scraper's non-empty patterns). -/
def pyReplace (s pat rep : String) : String :=
  String.mk (replaceFuel pat.data rep.data s.data.length s.data)

/-- The per-paragraph markup rewriting of the breaklines branch:
`str(p)` with `<br>` and `<br/>` turned into newlines, `</br>` and `<p>`
removed, `</p>` turned into a newline. -/
def breakPara (markup : String) : String :=
  pyReplace (pyReplace (pyReplace (pyReplace (pyReplace
    markup "<br>" "\n") "<br/>" "\n") "</br>" "") "<p>" "") "</p>" "\n"

/-- Python `s[:-2]`: drop the final two characters (total: shorter
strings become empty). -/
def dropLast2 (l : List Char) : List Char := l.take (l.length - 2)

/-- One iteration of the flattened-mode loop of `get_lyrics_from_div`:
`lyric += re.sub(r"\B([A-Z])", r" \1", p.text) + " "` followed by
`lyric = re.sub(' +', ' ', lyric)`. -/
def flatDivStep (lyric text : List Char) : List Char :=
  collapse (lyric ++ camelAux false text ++ [' '])

/-- One iteration of the flattened-mode loop of `get_lyrics_from_url`:
as `flatDivStep`, but the loop body ends with a further `lyric += " "`
after the space-collapsing substitution. -/
def flatUrlStep (lyric text : List Char) : List Char :=
  collapse (lyric ++ camelAux false text ++ [' ']) ++ [' ']

/-- Flattened-mode (`breaklines=False`) lyrics loop of
`get_lyrics_from_div`, over the paragraphs of the lyrics container. -/
def lyricsFlatDiv (paras : List Paragraph) : String :=
  String.mk (paras.foldl (fun lyric p => flatDivStep lyric p.text.data) [])

/-- Flattened-mode (`breaklines=False`) lyrics loop of
`get_lyrics_from_url`, over the paragraphs of the lyrics container. -/
def lyricsFlatUrl (paras : List Paragraph) : String :=
  String.mk (paras.foldl (fun lyric p => flatUrlStep lyric p.text.data) [])

/-- Breaklines-mode (`breaklines=True`) lyrics loop, textually identical
in `get_lyrics_from_div` and `get_lyrics_from_url`: each paragraph's
rewritten markup plus an extra newline is accumulated, and the final two
characters of the accumulation are removed (`lyric = lyric[:-2]`). -/
def lyricsBreak (paras : List Paragraph) : String :=
  String.mk (dropLast2
    (paras.foldl (fun lyric p => lyric ++ (breakPara p.markup).data ++ ['\n']) []))

/-- `get_lyrics_from_div(div, breaklines)` from `scrap.py`. -/
def get_lyrics_from_div (div : LyricDiv) (breaklines : Bool := false) : String :=
  if breaklines then lyricsBreak div.paragraphs else lyricsFlatDiv div.paragraphs

/-- `get_lyrics_from_url(song_url, breaklines)` from `scrap.py`: fetch
the song page, locate `div.cnt-letra` (an absent div is a lookup
failure), then run the corresponding lyrics loop. -/
def get_lyrics_from_url (fetch : Fetch) (song_url : String)
    (breaklines : Bool := false) : Except ScrapError String :=
  match fetch song_url with
  | .error e => .error e
  | .ok song =>
    match song.cntLetra with
    | none => .error ScrapError.lookupError
    | some lyric_div =>
      .ok (if breaklines then lyricsBreak lyric_div.paragraphs
           else lyricsFlatUrl lyric_div.paragraphs)

/-- `get_songs_list(artist_url)` from `scrap.py`: fetch
`artist_url + 'mais_acessadas.html'` and read the `data-shareurl`
attribute of every `li.cnt-list-row`, in document order; a missing
attribute yields `none` at that position. -/
def get_songs_list (fetch : Fetch) (artist_url : String) :
    Except ScrapError (List (Option String)) :=
  match fetch (artist_url ++ "mais_acessadas.html") with
  | .error e => .error e
  | .ok page => .ok (page.cntListRows.map CatalogRow.dataShareurl)

/-- `get_song_info(song_url)` from `scrap.py`: fetch the song page, read
the title (`find("div", class_="cnt-head_title").find("h1").text`), then
the lyrics div, and build the record; each absent element aborts with a
lookup failure. -/
def get_song_info (fetch : Fetch) (song_url : String) :
    Except ScrapError SongRecord :=
  match fetch song_url with
  | .error e => .error e
  | .ok song =>
    match song.cntHeadTitle with
    | none => .error ScrapError.lookupError
    | some headDiv =>
      match headDiv.h1 with
      | none => .error ScrapError.lookupError
      | some song_name =>
        match song.cntLetra with
        | none => .error ScrapError.lookupError
        | some lyric_div =>
          .ok ⟨song_name, get_lyrics_from_div lyric_div false, song_url⟩

/-- `get_song_info` applied to an entry of `get_songs_list`'s result: a
`None` placeholder (missing `data-shareurl`) makes `requests.get(None)`
raise, a request-level (fetch) failure. -/
def get_song_info_opt (fetch : Fetch) : Option String → Except ScrapError SongRecord
  | none => .error ScrapError.fetchError
  | some u => get_song_info fetch u

/-- A Python list comprehension `[f(x) for x in l]` over a fallible `f`:
evaluated left to right, the first raised error aborts the whole
comprehension. -/
def mapExcept {α β ε : Type} (f : α → Except ε β) : List α → Except ε (List β)
  | [] => .ok []
  | a :: as =>
    match f a with
    | .error e => .error e
    | .ok b =>
      match mapExcept f as with
      | .error e => .error e
      | .ok bs => .ok (b :: bs)

/-- `get_artist_songs(artist_url)` from `scrap.py`: the catalog listing
followed by the sequential comprehension `[get_song_info(url) for url in urls]`. -/
def get_artist_songs (fetch : Fetch) (artist_url : String) :
    Except ScrapError (List SongRecord) :=
  match get_songs_list fetch artist_url with
  | .error e => .error e
  | .ok urls => mapExcept (get_song_info_opt fetch) urls

/-- The thread pool running the submitted tasks: `schedule` is the
completion order (a list of input indices); each completed task is
recorded as its input index paired with the value of the task function
on the input at that index. Indices outside the input list complete no
task. -/
def runTasks {α β : Type} (f : α → β) (xs : List α) (schedule : List Nat) :
    List (Nat × β) :=
  schedule.filterMap (fun i => (xs.get? i).map (fun x => (i, f x)))

/-- The fan-in side of `executor.map`: results are yielded in input-index
order `0, 1, ...`, each looked up among the completed tasks. -/
def gatherResults {β : Type} (n : Nat) (completed : List (Nat × β)) : List β :=
  (List.range n).filterMap (fun i => (completed.find? (fun p => p.1 == i)).map Prod.snd)

/-- The `ThreadPoolExecutor` block of `scrap_songs_threading`:
`executor.map(get_song_info, songs_urls)` runs one task per URL (in the
completion order `schedule`; for a faithful pool run `schedule` is a
permutation of the input indices), and the comprehension
`[result for result in results]` collects the results in input order,
re-raising the first stored exception it reaches. -/
def threadAggregate (fetch : Fetch) (urls : List (Option String))
    (schedule : List Nat) : Except ScrapError (List SongRecord) :=
  mapExcept (fun r => r)
    (gatherResults urls.length (runTasks (get_song_info_opt fetch) urls schedule))

/-- Lowercase hexadecimal digits of `n` (as Python's `\uXXXX` escapes use). -/
def hexDigits (n : Nat) : List Char := Nat.toDigits 16 n

/-- `n` as exactly four lowercase hexadecimal digits. -/
def hex4 (n : Nat) : String :=
  String.mk (List.replicate (4 - (hexDigits n).length) '0' ++ hexDigits n)

/-- Python `json.dump`'s `\uXXXX` escape of a non-ASCII or control
character (`ensure_ascii=True`), with a surrogate pair beyond U+FFFF. -/
def uEscape (c : Char) : String :=
  if c.val.toNat ≤ 0xFFFF then "\\u" ++ hex4 c.val.toNat
  else "\\u" ++ hex4 (0xD800 + (c.val.toNat - 0x10000) / 0x400)
    ++ "\\u" ++ hex4 (0xDC00 + (c.val.toNat - 0x10000) % 0x400)

/-- Python `json.dump`'s escaping of one character inside a JSON string. -/
def jsonEscapeChar (c : Char) : String :=
  if c == '"' then "\\\""
  else if c == '\\' then "\\\\"
  else if c == '\n' then "\\n"
  else if c == '\r' then "\\r"
  else if c == '\t' then "\\t"
  else if c.val.toNat == 8 then "\\b"
  else if c.val.toNat == 12 then "\\f"
  else if c.val.toNat < 0x20 || c.val.toNat > 0x7e then uEscape c
  else String.mk [c]

/-- A JSON string literal as Python `json.dump` writes it. -/
def jsonStr (s : String) : String :=
  "\"" ++ String.join (s.data.map jsonEscapeChar) ++ "\""

/-- One song record as `json.dump(..., indent=4)` renders it inside the
top-level array: an object with the insertion-ordered keys `name`,
`lyrics`, `url`. -/
def recordJson (r : SongRecord) : String :=
  "    \x7b\n        \"name\": " ++ jsonStr r.name
    ++ ",\n        \"lyrics\": " ++ jsonStr r.lyrics
    ++ ",\n        \"url\": " ++ jsonStr r.url ++ "\n    \x7d"

/-- `json.dump(songs_info, fp, indent=4)`: the serialized JSON array. -/
def jsonDump (records : List SongRecord) : String :=
  match records with
  | [] => "[]"
  | _ => "[\n" ++ String.intercalate ",\n" (records.map recordJson) ++ "\n]"

/-- The single file write performed by the exporters:
`open(f"{output_name}.json", "w")` truncates/creates the file at `path`
and replaces its content wholesale with `content`. An exporter that
fails produces no `FileWrite` at all. -/
structure FileWrite where
  path : String
  content : String

deriving instance DecidableEq, Repr for FileWrite

/-- `scrap_songs_concurrently(artist_url, output_name)` from `scrap.py`:
catalog listing, sequential comprehension over the URLs, one JSON file
write, and the record count as result. Any upstream error propagates
before the write happens. -/
def scrap_songs_concurrently (fetch : Fetch) (artist_url output_name : String) :
    Except ScrapError (FileWrite × Nat) :=
  match get_songs_list fetch artist_url with
  | .error e => .error e
  | .ok songs_urls =>
    match mapExcept (get_song_info_opt fetch) songs_urls with
    | .error e => .error e
    | .ok songs_info =>
      .ok (⟨output_name ++ ".json", jsonDump songs_info⟩, songs_info.length)

/-- `scrap_songs_threading(artist_url, output_name)` from `scrap.py`:
as `scrap_songs_concurrently`, with the aggregation performed by the
thread pool (`schedule` is the pool's completion order). -/
def scrap_songs_threading (fetch : Fetch) (artist_url output_name : String)
    (schedule : List Nat) : Except ScrapError (FileWrite × Nat) :=
  match get_songs_list fetch artist_url with
  | .error e => .error e
  | .ok songs_urls =>
    match threadAggregate fetch songs_urls schedule with
    | .error e => .error e
    | .ok songs_info =>
      .ok (⟨output_name ++ ".json", jsonDump songs_info⟩, songs_info.length)

/-- Two consecutive space characters occur somewhere in the list. -/
def hasDoubleSpace : List Char → Bool
  | c :: d :: rest => (c == ' ' && d == ' ') || hasDoubleSpace (d :: rest)
  | _ => false

/-- The string contains two consecutive space characters. -/
def containsDoubleSpace (s : String) : Bool := hasDoubleSpace s.data

/-- A concrete fetched song page for the demo environments. -/
def demoDoc (title : String) (paras : List Paragraph) : Document :=
  ⟨[], some ⟨some title⟩, some ⟨paras⟩⟩

/-- Demo environment: an artist catalog of two songs, both pages
complete. -/
def demoFetch : Fetch := fun u =>
  if u = "artist/mais_acessadas.html" then
    .ok ⟨[⟨some "s1"⟩, ⟨some "s2"⟩], none, none⟩
  else if u = "s1" then .ok (demoDoc "First Song" [⟨"<p>aB</p>", "aB"⟩])
  else if u = "s2" then .ok (demoDoc "Second Song" [⟨"<p>cd</p>", "cd"⟩])
  else .error ScrapError.fetchError

/-- The song URLs listed by `demoFetch`'s catalog page. -/
def demoUrls : List (Option String) := [some "s1", some "s2"]

/-- The records extracted from `demoFetch`'s two song pages. -/
def demoRecs : List SongRecord :=
  [⟨"First Song", "a B ", "s1"⟩, ⟨"Second Song", "cd ", "s2"⟩]

/-- Demo environment: a song page whose heading container is absent. -/
def noTitleFetch : Fetch := fun u =>
  if u = "s" then .ok ⟨[], none, some ⟨[]⟩⟩
  else .error ScrapError.fetchError

/-- Demo environment: a catalog page whose middle row has no
`data-shareurl` attribute. -/
def gapCatalogFetch : Fetch := fun u =>
  if u = "artist/mais_acessadas.html" then
    .ok ⟨[⟨some "u1"⟩, ⟨none⟩, ⟨some "u3"⟩], none, none⟩
  else .error ScrapError.fetchError

/-- Demo environment: a song page whose lyrics container holds one
paragraph with plain text `"a"`. -/
def oneParaFetch : Fetch := fun u =>
  if u = "s" then .ok ⟨[], none, some ⟨[⟨"<p>a</p>", "a"⟩]⟩⟩
  else .error ScrapError.fetchError

/-- Unfolding equation for `collapse` at two explicit heads. -/
theorem collapse_cons₂ (c d : Char) (rest : List Char) :
    collapse (c :: d :: rest) =
      if c == ' ' && d == ' ' then collapse (d :: rest)
      else c :: collapse (d :: rest) := rfl

/-- Unfolding equation for `hasDoubleSpace` at two explicit heads. -/
theorem hasDoubleSpace_cons₂ (c d : Char) (rest : List Char) :
    hasDoubleSpace (c :: d :: rest) =
      ((c == ' ' && d == ' ') || hasDoubleSpace (d :: rest)) := rfl

/-- `collapse` keeps the head character of a non-empty list. -/
theorem collapse_cons_head :
    ∀ (t : List Char) (c : Char), ∃ t', collapse (c :: t) = c :: t' := by
  intro t
  induction t with
  | nil => exact fun c => ⟨[], rfl⟩
  | cons d rest ih =>
    intro c
    cases hcd : (c == ' ' && d == ' ') with
    | true =>
      obtain ⟨hc, hd⟩ := by simpa [Bool.and_eq_true, beq_iff_eq] using hcd
      subst hc; subst hd
      obtain ⟨t', ht⟩ := ih ' '
      exact ⟨t', by rw [collapse_cons₂, if_pos hcd, ht]⟩
    | false =>
      exact ⟨collapse (d :: rest), by rw [collapse_cons₂, hcd]; simp⟩

/-- The output of `collapse` never contains two consecutive spaces. -/
theorem collapse_noDouble : ∀ s : List Char, hasDoubleSpace (collapse s) = false := by
  intro s
  induction s with
  | nil => rfl
  | cons c t ih =>
    cases t with
    | nil => rfl
    | cons d rest =>
      cases hcd : (c == ' ' && d == ' ') with
      | true => rw [collapse_cons₂, if_pos hcd]; exact ih
      | false =>
        obtain ⟨t', ht⟩ := collapse_cons_head rest d
        rw [collapse_cons₂, hcd]
        simp only [Bool.false_eq_true, if_false, ht]
        rw [hasDoubleSpace_cons₂, hcd, ← ht, ih]
        rfl

/-- `collapse` of a list ending in a space ends in a space. -/
theorem collapse_trailing :
    ∀ Y : List Char, ∃ Z, collapse (Y ++ [' ']) = Z ++ [' '] := by
  intro Y
  induction Y with
  | nil => exact ⟨[], rfl⟩
  | cons a Y' ih =>
    cases Y' with
    | nil =>
      cases ha : (a == ' ' && ' ' == ' ') with
      | true =>
        refine ⟨[], ?_⟩
        show collapse (a :: ' ' :: []) = [] ++ [' ']
        rw [collapse_cons₂, if_pos ha]
        rfl
      | false =>
        refine ⟨[a], ?_⟩
        show collapse (a :: ' ' :: []) = [a] ++ [' ']
        rw [collapse_cons₂, ha]
        simp only [Bool.false_eq_true, if_false]
        rfl
    | cons b Y'' =>
      obtain ⟨Z', hZ'⟩ := ih
      cases hab : (a == ' ' && b == ' ') with
      | true =>
        refine ⟨Z', ?_⟩
        show collapse (a :: b :: (Y'' ++ [' '])) = Z' ++ [' ']
        rw [collapse_cons₂, if_pos hab]
        exact hZ'
      | false =>
        refine ⟨a :: Z', ?_⟩
        show collapse (a :: b :: (Y'' ++ [' '])) = (a :: Z') ++ [' ']
        rw [collapse_cons₂, hab]
        simp only [Bool.false_eq_true, if_false]
        rw [show collapse (b :: (Y'' ++ [' '])) = collapse ((b :: Y'') ++ [' ']) from rfl, hZ']
        rfl

/-- A space inserted into an existing run of spaces does not change the
collapsed result. -/
theorem collapse_pad :
    ∀ (A X : List Char), collapse (A ++ ' ' :: ' ' :: X) = collapse (A ++ ' ' :: X) := by
  intro A
  induction A with
  | nil =>
    intro X
    rw [List.nil_append, List.nil_append, collapse_cons₂]
    simp
  | cons a A' ih =>
    intro X
    cases A' with
    | nil =>
      have base : collapse (' ' :: ' ' :: X) = collapse (' ' :: X) := by
        rw [collapse_cons₂]; simp
      show collapse (a :: ' ' :: ' ' :: X) = collapse (a :: ' ' :: X)
      cases hcond : (a == ' ' && ' ' == ' ') with
      | true =>
        rw [collapse_cons₂, if_pos hcond, base, collapse_cons₂, if_pos hcond]
      | false =>
        rw [collapse_cons₂, hcond, collapse_cons₂ a ' ' X, hcond]
        simp only [Bool.false_eq_true, if_false, base]
    | cons b A'' =>
      show collapse (a :: b :: (A'' ++ ' ' :: ' ' :: X)) = collapse (a :: b :: (A'' ++ ' ' :: X))
      cases hcond : (a == ' ' && b == ' ') with
      | true =>
        rw [collapse_cons₂, if_pos hcond, collapse_cons₂ a b (A'' ++ ' ' :: X), if_pos hcond]
        exact ih X
      | false =>
        rw [collapse_cons₂, hcond, collapse_cons₂ a b (A'' ++ ' ' :: X), hcond]
        simp only [Bool.false_eq_true, if_false]
        exact congrArg (a :: ·) (ih X)

/-- Each flattened-mode iteration of the `get_lyrics_from_div` loop ends
in a space. -/
theorem flatDivStep_trailing (L t : List Char) :
    ∃ Z, flatDivStep L t = Z ++ [' '] := by
  unfold flatDivStep
  exact collapse_trailing (L ++ camelAux false t)

/-- On an accumulator ending in a space, one `get_lyrics_from_url`
flattened iteration computes the `get_lyrics_from_div` iteration on the
accumulator without its extra trailing space, plus one space. -/
theorem flatUrlStep_eq (Z t : List Char) :
    flatUrlStep ((Z ++ [' ']) ++ [' ']) t = flatDivStep (Z ++ [' ']) t ++ [' '] := by
  unfold flatUrlStep flatDivStep
  congr 1
  have h1 : ((Z ++ [' ']) ++ [' ']) ++ camelAux false t ++ [' '] =
      Z ++ ' ' :: ' ' :: (camelAux false t ++ [' ']) := by simp
  have h2 : (Z ++ [' ']) ++ camelAux false t ++ [' '] =
      Z ++ ' ' :: (camelAux false t ++ [' ']) := by simp
  rw [h1, h2, collapse_pad]

/-- The `get_lyrics_from_url` flattened fold started one space beyond a
space-terminated `get_lyrics_from_div` accumulator always stays exactly
one space beyond. -/
theorem foldl_flatUrl_eq (paras : List Paragraph) :
    ∀ D : List Char, (∃ Z, D = Z ++ [' ']) →
      paras.foldl (fun L p => flatUrlStep L p.text.data) (D ++ [' ']) =
        paras.foldl (fun L p => flatDivStep L p.text.data) D ++ [' '] := by
  induction paras with
  | nil => intro D _; simp
  | cons p ps ih =>
    intro D hD
    obtain ⟨Z, hZ⟩ := hD
    rw [List.foldl_cons, List.foldl_cons, hZ, flatUrlStep_eq, ← hZ]
    exact ih (flatDivStep D p.text.data) (flatDivStep_trailing D p.text.data)

/-- The `get_lyrics_from_div` flattened fold of a non-empty paragraph
list ends in a space. -/
theorem foldl_flatDiv_trailing (ps : List Paragraph) :
    ∀ D : List Char, (∃ Z, D = Z ++ [' ']) →
      ∃ Z', ps.foldl (fun L p => flatDivStep L p.text.data) D = Z' ++ [' '] := by
  induction ps with
  | nil => intro D hD; simpa using hD
  | cons p ps ih =>
    intro D _
    rw [List.foldl_cons]
    exact ih (flatDivStep D p.text.data) (flatDivStep_trailing D p.text.data)

/-- List-level form: the `get_lyrics_from_url` flattened loop returns the
`get_lyrics_from_div` flattened loop's value plus one trailing space. -/
theorem flatUrl_list_eq (p : Paragraph) (ps : List Paragraph) :
    (p :: ps).foldl (fun L q => flatUrlStep L q.text.data) [] =
      (p :: ps).foldl (fun L q => flatDivStep L q.text.data) [] ++ [' '] := by
  rw [List.foldl_cons, List.foldl_cons]
  rw [show flatUrlStep [] p.text.data = flatDivStep [] p.text.data ++ [' '] from rfl]
  exact foldl_flatUrl_eq ps (flatDivStep [] p.text.data)
    (flatDivStep_trailing [] p.text.data)

/-- `lyricsFlatUrl` is `lyricsFlatDiv` plus one trailing space on every
non-empty fragment. -/
theorem lyricsFlatUrl_eq_append (paras : List Paragraph) (h : paras ≠ []) :
    lyricsFlatUrl paras = lyricsFlatDiv paras ++ " " := by
  cases paras with
  | nil => exact absurd rfl h
  | cons p ps =>
    apply String.ext
    rw [String.data_append]
    show (p :: ps).foldl (fun L q => flatUrlStep L q.text.data) [] =
      (p :: ps).foldl (fun L q => flatDivStep L q.text.data) [] ++ [' ']
    exact flatUrl_list_eq p ps

/-- `lyricsFlatDiv` of a non-empty fragment ends in a space. -/
theorem lyricsFlatDiv_trailing (paras : List Paragraph) (h : paras ≠ []) :
    ∃ Z, (lyricsFlatDiv paras).data = Z ++ [' '] := by
  cases paras with
  | nil => exact absurd rfl h
  | cons p ps =>
    show ∃ Z, (p :: ps).foldl (fun L q => flatDivStep L q.text.data) [] = Z ++ [' ']
    rw [List.foldl_cons]
    exact foldl_flatDiv_trailing ps (flatDivStep [] p.text.data)
      (flatDivStep_trailing [] p.text.data)

/-- The `get_lyrics_from_div` flattened fold never contains a double
space, whatever the paragraphs. -/
theorem foldl_flatDiv_noDouble (ps : List Paragraph) :
    ∀ D : List Char, hasDoubleSpace D = false →
      hasDoubleSpace (ps.foldl (fun L p => flatDivStep L p.text.data) D) = false := by
  induction ps with
  | nil => exact fun D hD => hD
  | cons p ps ih =>
    intro D _
    rw [List.foldl_cons]
    exact ih (flatDivStep D p.text.data) (collapse_noDouble _)

/-- Claim C4, as stated, is false: realized by `get_lyrics_from_url` with
`breaklines=False`, flattened-mode normalization CAN produce two
consecutive spaces. On a page whose lyrics container holds the single
paragraph with plain text `"a"`, `get_lyrics_from_url` returns `"a  "`,
which contains two consecutive space characters. -/
theorem claim_C4_cx :
    get_lyrics_from_url oneParaFetch "s" false = Except.ok "a  " ∧
    containsDoubleSpace "a  " = true := by
  constructor
  · rfl
  · rfl

/-- Claim C4 (amended): for every fragment, the flattened-mode normalizer
as realized by `get_lyrics_from_div` (the realization `get_song_info`
uses) never contains two consecutive space characters; the
`get_lyrics_from_url` realization does not share this property. -/
theorem claim_C4 (div : LyricDiv) :
    containsDoubleSpace (get_lyrics_from_div div false) = false := by
  show hasDoubleSpace (lyricsFlatDiv div.paragraphs).data = false
  show hasDoubleSpace
    (div.paragraphs.foldl (fun L p => flatDivStep L p.text.data) []) = false
  exact foldl_flatDiv_noDouble div.paragraphs [] rfl

/-- Claim C5, as stated, is false at its own example: on the
two-paragraph fragment the accumulated concatenation is
`"Line one\ncont.\n\nLine two\n\n"` (the closing-paragraph newline plus
the per-paragraph extra newline), so removing the final two characters
yields `"Line one\ncont.\n\nLine two"`, not the claimed
`"Line one\ncont.\n\nLine two\n"` minus its last two characters
(which would be `"Line one\ncont.\n\nLine tw"`). -/
theorem claim_C5_cx :
    String.dropRight "Line one\ncont.\n\nLine two\n" 2 = "Line one\ncont.\n\nLine tw" ∧
    get_lyrics_from_div
        ⟨[⟨"<p>Line one<br>cont.</p>", "Line one\ncont."⟩,
          ⟨"<p>Line two</p>", "Line two"⟩]⟩ true ≠
      String.dropRight "Line one\ncont.\n\nLine two\n" 2 := by
  constructor
  · rfl
  · decide

/-- Claim C5 (amended): line-preserving mode replaces line-break markers
with newlines, removes opening paragraph markers, replaces closing
paragraph markers with a newline, appends one extra newline per
paragraph, and removes exactly the final two characters of the
concatenation; for the two-paragraph fragment
`["<p>Line one<br>cont.</p>", "<p>Line two</p>"]` it yields
`"Line one\ncont.\n\nLine two\n\n"` minus its last two characters,
i.e. `"Line one\ncont.\n\nLine two"`. -/
theorem claim_C5 :
    get_lyrics_from_div
        ⟨[⟨"<p>Line one<br>cont.</p>", "Line one\ncont."⟩,
          ⟨"<p>Line two</p>", "Line two"⟩]⟩ true =
      String.dropRight "Line one\ncont.\n\nLine two\n\n" 2 ∧
    String.dropRight "Line one\ncont.\n\nLine two\n\n" 2 = "Line one\ncont.\n\nLine two" := by
  constructor
  · decide
  · rfl

/-- Claim C7: in flattened mode each paragraph's plain text gets a space
inserted before every uppercase letter not at a word boundary, a
trailing space appended, and space runs collapsed; the single-paragraph
fragment with plain text `"HelloWorld"` normalizes to exactly
`"Hello World "`. -/
theorem claim_C7 :
    (∀ p : Paragraph,
      get_lyrics_from_div ⟨[p]⟩ false = collapseSpaces (camelSpace p.text ++ " ")) ∧
    get_lyrics_from_div ⟨[⟨"<p>HelloWorld</p>", "HelloWorld"⟩]⟩ false = "Hello World " := by
  constructor
  · intro p
    rfl
  · decide

/-- Claim C9: on an empty fragment flattened-mode normalization returns
the empty string, and line-preserving mode is total as well — the fixed
two-character trim of the empty accumulation returns the empty string.
The `get_lyrics_from_url` loop bodies behave the same. -/
theorem claim_C9 :
    get_lyrics_from_div ⟨[]⟩ false = "" ∧
    get_lyrics_from_div ⟨[]⟩ true = "" ∧
    lyricsFlatUrl [] = "" ∧
    lyricsBreak [] = "" := by
  exact ⟨rfl, rfl, rfl, rfl⟩

/-- Claim C10: the two flattened-mode realizations differ extensionally:
on every non-empty fragment `get_lyrics_from_url`'s loop returns
`get_lyrics_from_div`'s value with one additional space appended (so the
two are unequal); its result ends in two consecutive spaces; and
`get_song_info` builds its record with the `get_lyrics_from_div`
realization. -/
theorem claim_C10 (paras : List Paragraph) (hne : paras ≠ []) :
    (lyricsFlatUrl paras = lyricsFlatDiv paras ++ " " ∧
      lyricsFlatUrl paras ≠ lyricsFlatDiv paras) ∧
    (∀ p : Paragraph, paras.getLast? = some p → p.text ≠ "" →
      ∃ s : String, lyricsFlatUrl paras = s ++ "  ") ∧
    (∀ (fetch : Fetch) (url : String) (doc : Document) (hd : HeadDiv)
        (t : String) (ld : LyricDiv),
      fetch url = Except.ok doc → doc.cntHeadTitle = some hd →
      hd.h1 = some t → doc.cntLetra = some ld →
      get_song_info fetch url = Except.ok ⟨t, get_lyrics_from_div ld false, url⟩) := by
  refine ⟨⟨lyricsFlatUrl_eq_append paras hne, ?_⟩, ?_, ?_⟩
  · intro heq
    have h1 := lyricsFlatUrl_eq_append paras hne
    rw [heq] at h1
    have h2 := congrArg String.data h1
    rw [String.data_append] at h2
    rw [show (" " : String).data = [' '] from rfl] at h2
    have h3 := congrArg List.length h2
    rw [List.length_append] at h3
    simp only [List.length_singleton] at h3
    omega
  · intro p _ _
    obtain ⟨Z, hZ⟩ := lyricsFlatDiv_trailing paras hne
    refine ⟨String.mk Z, ?_⟩
    apply String.ext
    have h1 := congrArg String.data (lyricsFlatUrl_eq_append paras hne)
    rw [String.data_append] at h1
    rw [h1, hZ, String.data_append]
    show (Z ++ [' ']) ++ [' '] = Z ++ [' ', ' ']
    simp
  · intro fetch url doc hd t ld hf hh hh1 hl
    simp [get_song_info, hf, hh, hh1, hl]

/-- Witness for claim C10 at the one-paragraph fragment with plain text
`"aB"` and at `demoFetch`'s first song page. -/
theorem claim_C10_witness :
    lyricsFlatUrl [⟨"<p>aB</p>", "aB"⟩] = lyricsFlatDiv [⟨"<p>aB</p>", "aB"⟩] ++ " " ∧
    get_song_info demoFetch "s1" =
      Except.ok ⟨"First Song", get_lyrics_from_div ⟨[⟨"<p>aB</p>", "aB"⟩]⟩ false, "s1"⟩ := by
  have H := claim_C10 [⟨"<p>aB</p>", "aB"⟩] (by decide)
  refine ⟨H.1.1, ?_⟩
  exact H.2.2 demoFetch "s1" (demoDoc "First Song" [⟨"<p>aB</p>", "aB"⟩])
    ⟨some "First Song"⟩ "First Song" ⟨[⟨"<p>aB</p>", "aB"⟩]⟩ rfl rfl rfl rfl

/-- A fail-fast comprehension whose items all succeed returns the list
of successes: same length, and position `i` of the output is the success
of the item at position `i` of the input. -/
theorem mapExcept_ok_of_forall {α β ε : Type} (f : α → Except ε β) :
    ∀ l : List α, (∀ a ∈ l, ∃ b, f a = Except.ok b) →
      ∃ bs, mapExcept f l = Except.ok bs ∧ bs.length = l.length ∧
        ∀ (i : Nat) (h1 : i < l.length) (h2 : i < bs.length),
          f (l.get ⟨i, h1⟩) = Except.ok (bs.get ⟨i, h2⟩) := by
  intro l
  induction l with
  | nil =>
    intro _
    exact ⟨[], rfl, rfl, fun i h1 _ => absurd h1 (Nat.not_lt_zero i)⟩
  | cons a as ih =>
    intro h
    obtain ⟨b, hb⟩ := h a (List.mem_cons_self a as)
    obtain ⟨bs, hbs, hlen, hget⟩ := ih (fun x hx => h x (List.mem_cons_of_mem a hx))
    refine ⟨b :: bs, ?_, ?_, ?_⟩
    · simp [mapExcept, hb, hbs]
    · simp [hlen]
    · intro i h1 h2
      cases i with
      | zero => simpa using hb
      | succ n =>
        exact hget n (Nat.lt_of_succ_lt_succ h1) (Nat.lt_of_succ_lt_succ h2)

/-- Collecting already-computed `Except` values with a fail-fast
comprehension is the fail-fast comprehension of the producing function. -/
theorem mapExcept_map_id {α β ε : Type} (f : α → Except ε β) :
    ∀ l : List α, mapExcept (fun r => r) (l.map f) = mapExcept f l := by
  intro l
  induction l with
  | nil => rfl
  | cons a as ih =>
    show mapExcept (fun r => r) (f a :: as.map f) = mapExcept f (a :: as)
    cases hfa : f a <;> simp [mapExcept, hfa, ih]

/-- A `filterMap` whose function always produces `some` is a `map`. -/
theorem filterMap_eq_map_of_forall {α β : Type} {l : List α} {F : α → Option β}
    {G : α → β} (h : ∀ a ∈ l, F a = some (G a)) : l.filterMap F = l.map G := by
  induction l with
  | nil => rfl
  | cons a as ih =>
    rw [List.filterMap_cons_some (h a (List.mem_cons_self a as)), List.map_cons,
      ih (fun x hx => h x (List.mem_cons_of_mem a hx))]

/-- Looking up task `i` among the completed tasks: whenever index `i` is
in range and was scheduled, the lookup finds `i` paired with the task
value at input `i` — whatever the completion order was. -/
theorem find?_runTasks {α β : Type} (f : α → β) (xs : List α) :
    ∀ (schedule : List Nat) (i : Nat) (hi : i < xs.length), i ∈ schedule →
      (runTasks f xs schedule).find? (fun p => p.1 == i) =
        some (i, f (xs.get ⟨i, hi⟩)) := by
  intro schedule
  induction schedule with
  | nil => intro i _ hmem; exact absurd hmem (List.not_mem_nil i)
  | cons j js ih =>
    intro i hi hmem
    by_cases hji : j = i
    · subst hji
      have hget : xs.get? j = some (xs.get ⟨j, hi⟩) := List.get?_eq_get hi
      show ((j :: js).filterMap
        (fun k => (xs.get? k).map (fun x => (k, f x)))).find? (fun p => p.1 == j) = _
      rw [List.filterMap_cons_some (by rw [hget]; rfl)]
      exact List.find?_cons_of_pos _ (by simp)
    · have hmem' : i ∈ js := by
        cases List.mem_cons.mp hmem with
        | inl h => exact absurd h.symm hji
        | inr h => exact h
      show ((j :: js).filterMap
        (fun k => (xs.get? k).map (fun x => (k, f x)))).find? (fun p => p.1 == i) = _
      cases hget : xs.get? j with
      | none =>
        rw [List.filterMap_cons_none (by rw [hget]; rfl)]
        exact ih i hi hmem'
      | some x =>
        rw [List.filterMap_cons_some (by rw [hget]; rfl)]
        rw [List.find?_cons_of_neg _ (by simpa using hji)]
        exact ih i hi hmem'

/-- Fan-in over any completion order that scheduled every input index:
gathering the completed tasks in input-index order reconstructs exactly
the map of the task function over the inputs. -/
theorem gatherResults_eq {α β : Type} [Inhabited α] (f : α → β) (xs : List α)
    (schedule : List Nat) (h : ∀ i, i < xs.length → i ∈ schedule) :
    gatherResults xs.length (runTasks f xs schedule) = xs.map f := by
  unfold gatherResults
  have hF : ∀ i ∈ List.range xs.length,
      ((runTasks f xs schedule).find? (fun p => p.1 == i)).map Prod.snd =
        some ((fun k => f (xs.getD k default)) i) := by
    intro i hi
    have hi' : i < xs.length := List.mem_range.mp hi
    rw [find?_runTasks f xs schedule i hi' (h i hi')]
    show some (f (xs.get ⟨i, hi'⟩)) = some (f (xs.getD i default))
    rw [List.getD_eq_getElem xs default hi']
    rfl
  rw [filterMap_eq_map_of_forall hF]
  apply List.ext_getElem
  · simp
  · intro i h1 h2
    simp only [List.getElem_map, List.getElem_range]
    have h3 : i < xs.length := by simpa using h1
    rw [List.getD_eq_getElem xs default h3]

/-- Under any completion order that is a permutation of the input
indices, the thread-pool aggregation equals the sequential fail-fast
comprehension — including which error is propagated when a task fails. -/
theorem threadAggregate_eq_seq (fetch : Fetch) (urls : List (Option String))
    (schedule : List Nat) (hperm : schedule.Perm (List.range urls.length)) :
    threadAggregate fetch urls schedule = mapExcept (get_song_info_opt fetch) urls := by
  unfold threadAggregate
  have hmem : ∀ i, i < urls.length → i ∈ schedule := fun i hi =>
    (hperm.mem_iff).mpr (List.mem_range.mpr hi)
  rw [gatherResults_eq (get_song_info_opt fetch) urls schedule hmem]
  exact mapExcept_map_id (get_song_info_opt fetch) urls

/-- A successful fail-fast comprehension preserves the input length. -/
theorem mapExcept_length {α β ε : Type} (f : α → Except ε β) :
    ∀ (l : List α) (bs : List β), mapExcept f l = Except.ok bs → bs.length = l.length := by
  intro l
  induction l with
  | nil =>
    intro bs h
    simp only [mapExcept] at h
    injection h with h
    subst h
    rfl
  | cons a as ih =>
    intro bs h
    simp only [mapExcept] at h
    cases hfa : f a with
    | error e => rw [hfa] at h; simp at h
    | ok b =>
      rw [hfa] at h
      cases hbs : mapExcept f as with
      | error e => rw [hbs] at h; simp at h
      | ok bs' =>
        rw [hbs] at h
        simp at h
        subst h
        simp [ih bs' hbs]

/-- Claim C1: for every non-empty URL sequence on which every
fetch-and-extract succeeds, the sequential comprehension of
`scrap_songs_concurrently` and the thread-pool path of
`scrap_songs_threading` (under any completion order that is a
permutation of the input indices) produce identical ordered record
sequences, and the two exporters behave identically. -/
theorem claim_C1 (fetch : Fetch) (artist_url output_name : String)
    (urls : List (Option String)) (schedule : List Nat)
    (hlist : get_songs_list fetch artist_url = Except.ok urls)
    (_hne : urls ≠ [])
    (_hsucc : ∀ u ∈ urls, ∃ r, get_song_info_opt fetch u = Except.ok r)
    (hperm : schedule.Perm (List.range urls.length)) :
    threadAggregate fetch urls schedule = mapExcept (get_song_info_opt fetch) urls ∧
    scrap_songs_threading fetch artist_url output_name schedule =
      scrap_songs_concurrently fetch artist_url output_name := by
  have hthread := threadAggregate_eq_seq fetch urls schedule hperm
  refine ⟨hthread, ?_⟩
  simp [scrap_songs_threading, scrap_songs_concurrently, hlist, hthread]

/-- Witness for claim C1: two catalog songs, completion order reversed
(`[1, 0]`, the second task finishing first). -/
theorem claim_C1_witness :
    threadAggregate demoFetch demoUrls [1, 0] =
      mapExcept (get_song_info_opt demoFetch) demoUrls ∧
    scrap_songs_threading demoFetch "artist/" "songs" [1, 0] =
      scrap_songs_concurrently demoFetch "artist/" "songs" := by
  apply claim_C1 demoFetch "artist/" "songs" demoUrls [1, 0]
  · rfl
  · decide
  · intro u hu
    simp only [demoUrls, List.mem_cons, List.not_mem_nil, or_false] at hu
    rcases hu with rfl | rfl
    · exact ⟨_, rfl⟩
    · exact ⟨_, rfl⟩
  · decide

/-- Claim C2: assuming every fetch-and-extract succeeds, both
aggregators return a record list of the same length as the URL list
whose `i`-th record is extracted from the `i`-th URL, for any completion
order of the pool. -/
theorem claim_C2 (fetch : Fetch) (urls : List (Option String)) (schedule : List Nat)
    (hsucc : ∀ u ∈ urls, ∃ r, get_song_info_opt fetch u = Except.ok r)
    (hperm : schedule.Perm (List.range urls.length)) :
    ∃ recs : List SongRecord,
      mapExcept (get_song_info_opt fetch) urls = Except.ok recs ∧
      threadAggregate fetch urls schedule = Except.ok recs ∧
      recs.length = urls.length ∧
      ∀ (i : Nat) (h1 : i < urls.length) (h2 : i < recs.length),
        get_song_info_opt fetch (urls.get ⟨i, h1⟩) = Except.ok (recs.get ⟨i, h2⟩) := by
  obtain ⟨recs, hok, hlen, hget⟩ := mapExcept_ok_of_forall (get_song_info_opt fetch) urls hsucc
  exact ⟨recs, hok, by rw [threadAggregate_eq_seq fetch urls schedule hperm, hok], hlen, hget⟩

/-- Witness for claim C2 at the two-song demo environment, with the
pool completing in reversed order. -/
theorem claim_C2_witness :
    mapExcept (get_song_info_opt demoFetch) demoUrls = Except.ok demoRecs ∧
    threadAggregate demoFetch demoUrls [1, 0] = Except.ok demoRecs ∧
    demoRecs.length = demoUrls.length := by
  obtain ⟨recs, h1, h2, h3, _⟩ := claim_C2 demoFetch demoUrls [1, 0]
    (by
      intro u hu
      simp only [demoUrls, List.mem_cons, List.not_mem_nil, or_false] at hu
      rcases hu with rfl | rfl
      · exact ⟨_, rfl⟩
      · exact ⟨_, rfl⟩)
    (by decide)
  have hrec : recs = demoRecs := by
    have hd : mapExcept (get_song_info_opt demoFetch) demoUrls = Except.ok demoRecs := rfl
    rw [h1] at hd
    exact Except.ok.inj hd
  subst hrec
  exact ⟨h1, h2, h3⟩

/-- Claim C3: export is all-or-nothing. A listing failure propagates as
the exporter's error; given a successful listing, a fully successful
aggregation yields exactly one write of the JSON array to
`<output_name>.json` and the record count (equal to the number of listed
URLs), while any aggregation failure propagates as the exporter's error
(the model's error result carries no `FileWrite`, so nothing is
written). The thread-pool exporter behaves identically under any
completion order that is a permutation of the input indices. -/
theorem claim_C3 (fetch : Fetch) (artist_url output_name : String) (schedule : List Nat) :
    (∀ e, get_songs_list fetch artist_url = Except.error e →
      scrap_songs_concurrently fetch artist_url output_name = Except.error e ∧
      scrap_songs_threading fetch artist_url output_name schedule = Except.error e) ∧
    (∀ urls, get_songs_list fetch artist_url = Except.ok urls →
      (∀ recs, mapExcept (get_song_info_opt fetch) urls = Except.ok recs →
        scrap_songs_concurrently fetch artist_url output_name =
          Except.ok (⟨output_name ++ ".json", jsonDump recs⟩, recs.length) ∧
        recs.length = urls.length ∧
        (schedule.Perm (List.range urls.length) →
          scrap_songs_threading fetch artist_url output_name schedule =
            Except.ok (⟨output_name ++ ".json", jsonDump recs⟩, recs.length))) ∧
      (∀ e, mapExcept (get_song_info_opt fetch) urls = Except.error e →
        scrap_songs_concurrently fetch artist_url output_name = Except.error e ∧
        (schedule.Perm (List.range urls.length) →
          scrap_songs_threading fetch artist_url output_name schedule = Except.error e))) := by
  refine ⟨?_, ?_⟩
  · intro e he
    constructor <;> simp [scrap_songs_concurrently, scrap_songs_threading, he]
  · intro urls hurls
    refine ⟨?_, ?_⟩
    · intro recs hrecs
      refine ⟨?_, mapExcept_length (get_song_info_opt fetch) urls recs hrecs, ?_⟩
      · simp [scrap_songs_concurrently, hurls, hrecs]
      · intro hperm
        simp [scrap_songs_threading, hurls,
          threadAggregate_eq_seq fetch urls schedule hperm, hrecs]
    · intro e he
      refine ⟨?_, ?_⟩
      · simp [scrap_songs_concurrently, hurls, he]
      · intro hperm
        simp [scrap_songs_threading, hurls,
          threadAggregate_eq_seq fetch urls schedule hperm, he]

/-- Witness for claim C3: the demo export writes `songs.json` with the
serialized records of the two listed songs and returns their count. -/
theorem claim_C3_witness :
    get_songs_list demoFetch "artist/" = Except.ok demoUrls ∧
    scrap_songs_concurrently demoFetch "artist/" "songs" =
      Except.ok (⟨"songs.json", jsonDump demoRecs⟩, demoRecs.length) ∧
    demoRecs.length = demoUrls.length ∧
    scrap_songs_threading demoFetch "artist/" "songs" [1, 0] =
      Except.ok (⟨"songs.json", jsonDump demoRecs⟩, demoRecs.length) := by
  have H := (claim_C3 demoFetch "artist/" "songs" [1, 0]).2 demoUrls rfl
  have H1 := H.1 demoRecs rfl
  exact ⟨rfl, H1.1, H1.2.1, H1.2.2 (by decide)⟩

/-- Claim C6: if the heading container, its title element, or the lyrics
container is absent from a fetched song page, `get_song_info` fails with
the lookup error — no recovery, no fallback record. -/
theorem claim_C6 (fetch : Fetch) (url : String) (doc : Document)
    (hf : fetch url = Except.ok doc)
    (habs : doc.cntHeadTitle = none ∨
      (∃ hd, doc.cntHeadTitle = some hd ∧ hd.h1 = none) ∨
      doc.cntLetra = none) :
    get_song_info fetch url = Except.error ScrapError.lookupError := by
  rcases habs with h | ⟨hd, hht, hh1⟩ | h
  · simp [get_song_info, hf, h]
  · simp [get_song_info, hf, hht, hh1]
  · cases hht : doc.cntHeadTitle with
    | none => simp [get_song_info, hf, hht]
    | some hd =>
      cases hh1 : hd.h1 with
      | none => simp [get_song_info, hf, hht, hh1]
      | some t => simp [get_song_info, hf, hht, hh1, h]

/-- Witness for claim C6 at a page whose heading container is absent. -/
theorem claim_C6_witness :
    noTitleFetch "s" = Except.ok ⟨[], none, some ⟨[]⟩⟩ ∧
    get_song_info noTitleFetch "s" = Except.error ScrapError.lookupError :=
  ⟨rfl, claim_C6 noTitleFetch "s" ⟨[], none, some ⟨[]⟩⟩ rfl (Or.inl rfl)⟩

/-- Claim C8: on a successfully fetched listing page, `get_songs_list`
succeeds with one entry per catalog row in document order; a row whose
`data-shareurl` attribute is missing contributes a `none` placeholder at
exactly its position, and the listing operation itself never fails on a
missing attribute. -/
theorem claim_C8 (fetch : Fetch) (artist_url : String) (page : Document)
    (hf : fetch (artist_url ++ "mais_acessadas.html") = Except.ok page) :
    get_songs_list fetch artist_url =
      Except.ok (page.cntListRows.map CatalogRow.dataShareurl) ∧
    (page.cntListRows.map CatalogRow.dataShareurl).length = page.cntListRows.length ∧
    ∀ (i : Nat) (h1 : i < page.cntListRows.length)
      (h2 : i < (page.cntListRows.map CatalogRow.dataShareurl).length),
      (page.cntListRows.map CatalogRow.dataShareurl).get ⟨i, h2⟩ =
        (page.cntListRows.get ⟨i, h1⟩).dataShareurl := by
  refine ⟨by simp [get_songs_list, hf], by simp, ?_⟩
  intro i h1 h2
  simp

/-- Witness for claim C8 at a catalog page whose middle row lacks the
URL attribute: the output keeps a `none` placeholder at that position. -/
theorem claim_C8_witness :
    get_songs_list gapCatalogFetch "artist/" =
      Except.ok [some "u1", none, some "u3"] := by
  have H := claim_C8 gapCatalogFetch "artist/"
    ⟨[⟨some "u1"⟩, ⟨none⟩, ⟨some "u3"⟩], none, none⟩ rfl
  exact H.1
